import Mathlib

set_option autoImplicit false

/-!
Verification of the Gauth web application backend (Go, gin + gorm).

The Go sources are shallowly embedded: handlers become pure Lean functions
from an explicit store (lists of rows) and an explicit clock (`now : Int`,
Unix seconds) to a result; gorm queries become `List.find?` / `List.filter`
over the row lists; the bcrypt and JWT libraries are modelled at their
contract level (deterministic idealized hash, structural signatures).
-/

namespace Gauth

/-- Idealized model of `bcrypt.GenerateFromPassword`: a deterministic tag of the
password (the salt is abstracted away).  The hash of a password is never the
empty string. -/
def generateFromPassword (pw : String) : String := "bcrypt$" ++ pw

/-- Model of `bcrypt.CompareHashAndPassword`: verification succeeds exactly when
the stored hash is the hash of the supplied password (`true` = nil error). -/
def compareHashAndPassword (hash pw : String) : Bool :=
  hash == generateFromPassword pw

/-- Embedding of `models.Role` (src/unnamed/part_000, lines 42-54).  `permissions` holds the
JSON-serialized permission list as a text column. -/
structure Role where
  id : String
  name : String
  description : String
  permissions : String
  isActive : Bool
deriving DecidableEq

/-- Embedding of `models.User` (src/unnamed/part_000, lines 12-31).  `password` stores the
bcrypt hash; `lastLoginAt` is the nullable last-login timestamp. -/
structure User where
  id : String
  username : String
  email : String
  password : String
  firstName : String
  lastName : String
  isActive : Bool
  isVerified : Bool
  lastLoginAt : Option Int
  roles : List Role
deriving DecidableEq

/-- Embedding of `models.Session` (src/unnamed/part_000, lines 107-121), with the preloaded
`User` relation embedded. -/
structure Session where
  id : String
  userId : String
  token : String
  expiresAt : Int
  ipAddress : String
  userAgent : String
  isActive : Bool
  user : User
deriving DecidableEq

/-- Embedding of `Session.IsExpired` (src/unnamed/part_000, lines 132-134):
`time.Now().After(s.ExpiresAt)`. -/
def Session.isExpired (s : Session) (now : Int) : Bool :=
  s.expiresAt < now

/-- Embedding of `config.JWTConfig` (src/backend/internal/config/config.go): durations are in
seconds. -/
structure JWTConfig where
  secret : String
  expiry : Int
  refreshExp : Int
deriving DecidableEq

/-- JWT signing algorithms relevant to the handlers; the `hs*` constructors form
the `jwt.SigningMethodHMAC` family. -/
inductive Alg where
  | hs256
  | hs384
  | hs512
  | rs256
  | es256
deriving DecidableEq

/-- Membership in the `*jwt.SigningMethodHMAC` family checked by both keyfuncs. -/
def Alg.isHMAC : Alg → Bool
  | .hs256 => true
  | .hs384 => true
  | .hs512 => true
  | _ => false

/-- A JSON claim value as seen through a Go type assertion `.(string)`: it can be
absent from the map, a string, or present with a non-string type. -/
inductive ClaimVal where
  | missing
  | str (s : String)
  | nonString
deriving DecidableEq

/-- Checked assertion `v, ok := claims[k].(string)`. -/
def ClaimVal.asString? : ClaimVal → Option String
  | .str s => some s
  | _ => none

/-- Unchecked assertion `v, _ := claims[k].(string)`: the zero value `""` on
failure. -/
def ClaimVal.asStringD (v : ClaimVal) : String :=
  v.asString?.getD ""

/-- The `jwt.MapClaims` fields written and read by the handlers
(src/backend/internal/handlers/auth.go, lines 288-312). -/
structure MapClaims where
  user_id : ClaimVal
  session_token : ClaimVal
  typ : ClaimVal
  exp : Option Int
  iat : Option Int
deriving DecidableEq

/-- An idealized HMAC signature: structurally records the algorithm, key and
signed payload, so that verification is equality with a recomputed signature. -/
structure Sig where
  alg : Alg
  key : String
  payload : MapClaims
deriving DecidableEq

/-- A parsed JWT: header algorithm, claims, and signature. -/
structure Token where
  method : Alg
  claims : MapClaims
  sig : Sig
deriving DecidableEq

/-- Model of `jwt.NewWithClaims(alg, claims).SignedString(key)`. -/
def signToken (alg : Alg) (key : String) (claims : MapClaims) : Token :=
  { method := alg, claims := claims, sig := { alg := alg, key := key, payload := claims } }

/-- golang-jwt v5 registered-claims validation: a present `exp` that lies in the
past makes the token invalid (no expiry claim is required). -/
def claimsExpired (claims : MapClaims) (now : Int) : Bool :=
  match claims.exp with
  | none => false
  | some e => e < now

/-- Model of `jwt.Parse` with a keyfunc that rejects any non-HMAC method, as written
identically in `AuthMiddleware` (middleware.go, lines 106-119) and
`RefreshToken` (auth.go, lines 133-143): `some claims` exactly when the method
is in the HMAC family, the signature verifies against `secret`, and the
registered claims are valid. -/
def jwtParse (tok : Token) (secret : String) (now : Int) : Option MapClaims :=
  if tok.method.isHMAC && tok.sig == { alg := tok.method, key := secret, payload := tok.claims : Sig }
      && !claimsExpired tok.claims now then
    some tok.claims
  else
    none

/-- Embedding of `AuthHandler.generateAccessToken` (auth.go, lines 288-299). -/
def generateAccessToken (cfg : JWTConfig) (userID sessionToken : String) (now : Int) : Token :=
  signToken .hs256 cfg.secret
    { user_id := .str userID, session_token := .str sessionToken, typ := .str "access",
      exp := some (now + cfg.expiry), iat := some now }

/-- Embedding of `AuthHandler.generateRefreshToken` (auth.go, lines 301-312). -/
def generateRefreshToken (cfg : JWTConfig) (userID sessionToken : String) (now : Int) : Token :=
  signToken .hs256 cfg.secret
    { user_id := .str userID, session_token := .str sessionToken, typ := .str "refresh",
      exp := some (now + cfg.refreshExp), iat := some now }

/-- Embedding of `models.LoginRequest`: both fields carry `binding:"required"`, so a bound
request has non-empty fields. -/
structure LoginRequest where
  username : String
  password : String
deriving DecidableEq

/-- Embedding of `models.LoginResponse` (src/unnamed/part_000, lines 190-195); the token
strings are represented by the structural tokens they decode to. -/
structure LoginResponse where
  user : User
  accessToken : Token
  refreshToken : Token
  expiresIn : Int
deriving DecidableEq

/-- Outcome of a handler: a 200 body or an error status with its JSON `error`
message. -/
inductive HandlerResult where
  | ok (resp : LoginResponse)
  | err (status : Nat) (msg : String)
deriving DecidableEq

/-- Returns `true` exactly on the HTTP 200 success outcome. -/
def HandlerResult.isOk : HandlerResult → Bool
  | .ok _ => true
  | .err _ _ => false

/-- The user lookup of `Login` (auth.go, lines 48-54):
`WHERE username = ? OR email = ?` followed by `First`. -/
def findUserByLogin (users : List User) (login : String) : Option User :=
  users.find? (fun u => u.username == login || u.email == login)

/-- Embedding of `AuthHandler.Login` (auth.go, lines 40-112), from the point where the request
body is bound.  `newSessionID` and `newSessionToken` stand for the two
`uuid.New().String()` draws; the database is threaded explicitly and the
session insert and last-login save are the returned updated lists. -/
def login (cfg : JWTConfig) (users : List User) (sessions : List Session)
    (req : LoginRequest) (now : Int) (newSessionID newSessionToken ip ua : String) :
    HandlerResult × List User × List Session :=
  match findUserByLogin users req.username with
  | none => (.err 401 "Invalid credentials", users, sessions)
  | some user =>
    if !user.isActive then
      (.err 401 "Account is disabled", users, sessions)
    else if !compareHashAndPassword user.password req.password then
      (.err 401 "Invalid credentials", users, sessions)
    else
      let session : Session :=
        { id := newSessionID, userId := user.id, token := newSessionToken,
          expiresAt := now + cfg.refreshExp, ipAddress := ip, userAgent := ua,
          isActive := true, user := user }
      let accessToken := generateAccessToken cfg user.id session.token now
      let refreshToken := generateRefreshToken cfg user.id session.token now
      let updatedUser : User := { user with lastLoginAt := some now }
      let users' := users.map (fun u => if u.id == user.id then updatedUser else u)
      let responseUser : User := { updatedUser with password := "" }
      (.ok { user := responseUser, accessToken := accessToken,
             refreshToken := refreshToken, expiresIn := cfg.expiry },
       users', sessions ++ [session])

/-! JSON serialization of `[]string`, modelling `encoding/json` as used by
`Role.GetPermissions` / `Role.SetPermissions` (src/unnamed/part_000, lines
64-81).  `json.Marshal` emits the compact form; the decoder below covers that
compact grammar (string arrays without insignificant whitespace). -/

/-- Lowercase hexadecimal digit, as in Go's JSON encoder. -/
def hexDigitChar (n : Nat) : Char :=
  if n < 10 then Char.ofNat (48 + n) else Char.ofNat (87 + n)

/-- The four hex digits of a `\uXXXX` escape for a code point below `0x10000`. -/
def hex4 (n : Nat) : List Char :=
  [hexDigitChar (n / 4096 % 16), hexDigitChar (n / 256 % 16),
   hexDigitChar (n / 16 % 16), hexDigitChar (n % 16)]

/-- Characters that Go's encoder (HTML escaping on) writes as a `\uXXXX`
escape: control characters without a short form, the HTML-sensitive `<`, `>`,
`&`, and the line separators U+2028/U+2029. -/
def needsUEscape (c : Char) : Bool :=
  c.toNat < 32 || c = '<' || c = '>' || c = '&' || c.toNat = 8232 || c.toNat = 8233

/-- Go `encoding/json` escaping of one character (default `json.Marshal`, HTML
escaping on): quote and backslash get two-character escapes, newline / carriage
return / tab their short forms, other control characters, the HTML-sensitive
characters and U+2028/U+2029 a `\u` escape, everything else is emitted as is. -/
def escapeChar (c : Char) : List Char :=
  if c = '"' then ['\\', '"']
  else if c = '\\' then ['\\', '\\']
  else if c = '\n' then ['\\', 'n']
  else if c = '\r' then ['\\', 'r']
  else if c = '\t' then ['\\', 't']
  else if needsUEscape c then '\\' :: 'u' :: hex4 c.toNat
  else [c]

/-- Escape every character of a string body. -/
def escapeChars : List Char → List Char
  | [] => []
  | c :: cs => escapeChar c ++ escapeChars cs

/-- A JSON string literal: quote, escaped body, quote. -/
def quoteChars (s : String) : List Char :=
  '"' :: escapeChars s.data ++ ['"']

/-- Comma-separated JSON string literals. -/
def marshalElems : List String → List Char
  | [] => []
  | [s] => quoteChars s
  | s :: rest => quoteChars s ++ ',' :: marshalElems rest

/-- Model of `json.Marshal` of a non-nil `[]string`. -/
def marshalStrings (l : List String) : String :=
  ('[' :: marshalElems l ++ [']']).asString

/-- Value of a hex digit (Go's decoder accepts both cases). -/
def parseHexDigit (c : Char) : Option Nat :=
  if 48 ≤ c.toNat ∧ c.toNat ≤ 57 then some (c.toNat - 48)
  else if 97 ≤ c.toNat ∧ c.toNat ≤ 102 then some (c.toNat - 87)
  else if 65 ≤ c.toNat ∧ c.toNat ≤ 70 then some (c.toNat - 55)
  else none

/-- The single-character escapes of JSON. -/
def unescapeChar (e : Char) : Option Char :=
  if e = '"' then some '"'
  else if e = '\\' then some '\\'
  else if e = '/' then some '/'
  else if e = 'b' then some (Char.ofNat 8)
  else if e = 'f' then some (Char.ofNat 12)
  else if e = 'n' then some '\n'
  else if e = 'r' then some '\r'
  else if e = 't' then some '\t'
  else none

/-- Decode a JSON string body up to and including its closing quote, returning
the decoded characters and the remaining input.  (The encoder never emits
surrogate halves, so `Char.ofNat` is applied to valid scalar values on every
input this development evaluates it on.) -/
def parseStringBody : List Char → Option (List Char × List Char)
  | [] => none
  | c :: rest =>
    if c = '"' then some ([], rest)
    else if c = '\\' then
      match rest with
      | [] => none
      | e :: rest2 =>
        if e = 'u' then
          match rest2 with
          | h1 :: h2 :: h3 :: h4 :: rest3 =>
            match parseHexDigit h1, parseHexDigit h2, parseHexDigit h3, parseHexDigit h4 with
            | some d1, some d2, some d3, some d4 =>
              match parseStringBody rest3 with
              | some (cs, r) => some (Char.ofNat (((d1 * 16 + d2) * 16 + d3) * 16 + d4) :: cs, r)
              | none => none
            | _, _, _, _ => none
          | _ => none
        else
          match unescapeChar e with
          | some u2 =>
            match parseStringBody rest2 with
            | some (cs, r) => some (u2 :: cs, r)
            | none => none
          | none => none
    else
      match parseStringBody rest with
      | some (cs, r) => some (c :: cs, r)
      | none => none

/-- Decode the comma-separated elements of a string array, consuming the final
`]` which must end the input; the fuel bounds the number of elements. -/
def parseElems (fuel : Nat) (l : List Char) : Option (List String) :=
  match fuel with
  | 0 => none
  | fuel + 1 =>
    match l with
    | [] => none
    | c :: r =>
      if c = '"' then
        match parseStringBody r with
        | none => none
        | some (cs, rest) =>
          match rest with
          | [] => none
          | d :: r2 =>
            if d = ']' then (if r2.isEmpty then some [cs.asString] else none)
            else if d = ',' then
              match parseElems fuel r2 with
              | some ss => some (cs.asString :: ss)
              | none => none
            else none
      else none

/-- Model of `json.Unmarshal` of a compact JSON text into a `[]string` target: `some l`
on a well-formed array of strings, `none` when decoding fails (the Go caller
discards the error and the target slice stays nil, and a `null` text likewise
leaves the slice nil). -/
def unmarshalStrings (s : String) : Option (List String) :=
  match s.data with
  | [] => none
  | c :: rest =>
    if c = '[' then
      if rest = [']'] then some []
      else parseElems (rest.length + 1) rest
    else none

/-- Embedding of `Role.GetPermissions` (src/unnamed/part_000, lines 65-72).  A Go `[]string`
value is modelled as `Option (List String)` with `none` for the nil slice: an
empty `permissions` column returns the literal empty slice, otherwise the
column is unmarshalled and a failed unmarshal leaves the slice nil. -/
def Role.getPermissions (r : Role) : Option (List String) :=
  if r.permissions == "" then some []
  else unmarshalStrings r.permissions

/-- Embedding of `Role.SetPermissions` (src/unnamed/part_000, lines 75-81): a nil slice is
replaced by the empty slice before marshalling. -/
def Role.setPermissions (r : Role) (permissions : Option (List String)) : Role :=
  { r with permissions := marshalStrings (permissions.getD []) }

/-! The authorization gate (src/backend/internal/middleware/middleware.go). -/

/-- Outcome of a gate middleware: pass the request on, or abort with a status
and a JSON `error` message. -/
inductive GateOutcome where
  | next
  | reject (status : Nat) (msg : String)
deriving DecidableEq

/-- Embedding of `RequireRole` (middleware.go, lines 178-208) for one request: `ctxUser` is
the `user` context value set by `AuthMiddleware` (absent when it did not run).
The Go 403 message wraps the role name in single quotes; the quotes are left
out of the modelled message text. -/
def requireRole (ctxUser : Option User) (requiredRole : String) : GateOutcome :=
  match ctxUser with
  | none => .reject 401 "User not found in context"
  | some u =>
    if u.roles.any (fun role => role.name == requiredRole) then .next
    else .reject 403 ("Role " ++ requiredRole ++ " is required")

/-- Embedding of `RequirePermission` (middleware.go, lines 211-248): the double loop over the
user's roles and each role's `GetPermissions()` (ranging over a nil slice
visits nothing).  The Go 403 message wraps the permission in single quotes;
the quotes are left out of the modelled message text. -/
def requirePermission (ctxUser : Option User) (requiredPermission : String) : GateOutcome :=
  match ctxUser with
  | none => .reject 401 "User not found in context"
  | some u =>
    if u.roles.any (fun role =>
        (role.getPermissions.getD []).any (fun permission => permission == requiredPermission)) then
      .next
    else .reject 403 ("Permission " ++ requiredPermission ++ " is required")

/-! The request authenticator and the session-bound handlers. -/

/-- Outcome of `AuthMiddleware`: the resolved identity attached to the request
context, or an abort with a status and message. -/
inductive AuthOutcome where
  | ok (user : User) (session : Session)
  | reject (status : Nat) (msg : String)
deriving DecidableEq

/-- Returns `true` when the middleware attached an identity and called `c.Next()`. -/
def AuthOutcome.isAuthorized : AuthOutcome → Bool
  | .ok _ _ => true
  | .reject _ _ => false

/-- Returns `true` when the middleware aborted with HTTP 401. -/
def AuthOutcome.isUnauthorized : AuthOutcome → Bool
  | .ok _ _ => false
  | .reject status _ => status == 401

/-- The session lookup shared by `AuthMiddleware` (middleware.go, lines
149-158) and `RefreshToken` (auth.go, lines 154-161):
`WHERE token = ? AND user_id = ? AND is_active = true`, `First`. -/
def findActiveSession (sessions : List Session) (tok uid : String) : Option Session :=
  sessions.find? (fun s => s.token == tok && s.userId == uid && s.isActive)

/-- Embedding of `AuthMiddleware` (middleware.go, lines 86-175) from the point where the
bearer token string has been extracted from the `Authorization` header.  The
`token.Claims.(jwt.MapClaims)` assertion always succeeds for the default
parser, so its failure branch is unreachable and not modelled. -/
def authMiddleware (cfg : JWTConfig) (sessions : List Session) (tok : Token) (now : Int) :
    AuthOutcome :=
  match jwtParse tok cfg.secret now with
  | none => .reject 401 "Invalid token"
  | some claims =>
    match claims.user_id.asString? with
    | none => .reject 401 "Invalid user ID in token"
    | some userID =>
      match claims.session_token.asString? with
      | none => .reject 401 "Invalid session token in claims"
      | some sessionToken =>
        match findActiveSession sessions sessionToken userID with
        | none => .reject 401 "Invalid session"
        | some session =>
          if session.isExpired now then .reject 401 "Session expired"
          else .ok session.user session

/-- Embedding of `models.RefreshTokenRequest`: the body's `refresh_token` string, represented
by the token it decodes to. -/
structure RefreshTokenRequest where
  refreshToken : Token
deriving DecidableEq

/-- Embedding of `AuthHandler.RefreshToken` (auth.go, lines 125-186) from the point where the
body is bound.  The session table is returned unchanged alongside the result,
making explicit that no session row is created or modified. -/
def refreshToken (cfg : JWTConfig) (sessions : List Session) (req : RefreshTokenRequest)
    (now : Int) : HandlerResult × List Session :=
  match jwtParse req.refreshToken cfg.secret now with
  | none => (.err 401 "Invalid refresh token", sessions)
  | some claims =>
    let userID := claims.user_id.asStringD
    let sessionToken := claims.session_token.asStringD
    match findActiveSession sessions sessionToken userID with
    | none => (.err 401 "Invalid session", sessions)
    | some session =>
      if session.isExpired now then (.err 401 "Session expired", sessions)
      else
        let accessToken := generateAccessToken cfg session.user.id session.token now
        let responseUser : User := { session.user with password := "" }
        ((.ok { user := responseUser, accessToken := accessToken,
                refreshToken := req.refreshToken, expiresIn := cfg.expiry }),
         sessions)

/-- Embedding of `AuthHandler.Logout` (auth.go, lines 198-214): the context session's active
flag is cleared and the row is saved back by primary key. -/
def logout (sessions : List Session) (session : Session) : List Session :=
  sessions.map (fun s =>
    if s.id == session.id then { session with isActive := false } else s)

/-! User listing (src/unnamed/part_001). -/

/-- Returns `true` when `pat` occurs as a contiguous run inside `hay`. -/
def listContainsSub (hay pat : List Char) : Bool :=
  match hay with
  | [] => pat.isEmpty
  | _ :: t => pat.isPrefixOf hay || listContainsSub t pat

/-- The `ILIKE '%search%'` disjunction of `GetUsers` (src/unnamed/part_001,
lines 57-60): case-insensitive containment in username, email, first or last
name. -/
def matchesSearch (u : User) (search : String) : Bool :=
  let pat := search.toLower.data
  listContainsSub u.username.toLower.data pat || listContainsSub u.email.toLower.data pat ||
    listContainsSub u.firstName.toLower.data pat || listContainsSub u.lastName.toLower.data pat

/-- The body of the 200 response of `GetUsers`: the selected page and the
`pagination` object. -/
structure UsersPage where
  users : List User
  currentPage : Int
  totalPages : Int
  totalItems : Int
  itemsPerPage : Int
deriving DecidableEq

/-- Embedding of `UserHandler.GetUsers` (src/unnamed/part_001, lines 41-87): `page0` and
`limit0` are the query parameters after `strconv.Atoi` (which yields 0 on a
parse failure), clamped as in the source; the page is the offset/limit window
of the filtered table, passwords stripped, and `total_pages` is
`(total + limit - 1) / limit` over the pre-offset count. -/
def getUsers (users : List User) (page0 limit0 : Int) (search : String) : UsersPage :=
  let page := if page0 < 1 then 1 else page0
  let limit := if limit0 < 1 || limit0 > 100 then 10 else limit0
  let offset := (page - 1) * limit
  let filtered := if search == "" then users else users.filter (fun u => matchesSearch u search)
  let total : Int := filtered.length
  let selected := ((filtered.drop offset.toNat).take limit.toNat).map
    (fun u => { u with password := "" })
  { users := selected, currentPage := page, totalPages := (total + limit - 1) / limit,
    totalItems := total, itemsPerPage := limit }

/-! Rate limiting (middleware.go, lines 292-325). -/

/-- The limiter's `clients` map, modelled as a total function from client IP to
its recorded request times (absent keys read as the empty list). -/
def RateState : Type := String → List Int

/-- Outcome of the `RateLimit` middleware for one request. -/
inductive RateOutcome where
  | proceed
  | reject (status : Nat) (msg : String)
deriving DecidableEq

/-- Model of `now.Sub(reqTime) <= time.Minute` (middleware.go, line 304), in seconds. -/
def withinWindow (now reqTime : Int) : Bool :=
  now - reqTime ≤ 60

/-- Embedding of `RateLimit` (middleware.go, lines 292-325) for one request at `now` (Unix
seconds): entries older than one minute are pruned and written back, then the
request is rejected with 429 if 100 or more remain, otherwise the current time
is appended and the request proceeds. -/
def rateLimit (clients : RateState) (clientIP : String) (now : Int) :
    RateOutcome × RateState :=
  let validRequests := (clients clientIP).filter (fun reqTime => withinWindow now reqTime)
  if validRequests.length ≥ 100 then
    (.reject 429 "Rate limit exceeded",
     fun ip => if ip == clientIP then validRequests else clients ip)
  else
    (.proceed,
     fun ip => if ip == clientIP then validRequests ++ [now] else clients ip)

/-! Concrete fixtures used by counterexamples and witnesses. -/

/-- A sample JWT configuration (15-minute access, 7-day refresh, in seconds). -/
def cfgA : JWTConfig :=
  { secret := "sekrit", expiry := 900, refreshExp := 604800 }

/-- A disabled account with a known password hash. -/
def aliceInactive : User :=
  { id := "u-alice", username := "alice", email := "alice@example.com",
    password := generateFromPassword "pw1", firstName := "A", lastName := "L",
    isActive := false, isVerified := true, lastLoginAt := none, roles := [] }

/-- An enabled account with a known password hash. -/
def carolActive : User :=
  { id := "u-carol", username := "carol", email := "carol@example.com",
    password := generateFromPassword "pw2", firstName := "C", lastName := "A",
    isActive := true, isVerified := true, lastLoginAt := none, roles := [] }

/-- User table holding one disabled and one enabled account. -/
def dbC1 : List User := [aliceInactive, carolActive]

/-- A second disabled account, for the login-equivalence counterexample. -/
def daveInactive : User :=
  { id := "u-dave", username := "dave", email := "dave@example.com",
    password := generateFromPassword "pw3", firstName := "D", lastName := "I",
    isActive := false, isVerified := false, lastLoginAt := none, roles := [] }

/-- A second enabled account, for the login-equivalence witness. -/
def frankActive : User :=
  { id := "u-frank", username := "frank", email := "frank@example.com",
    password := generateFromPassword "pw9", firstName := "F", lastName := "A",
    isActive := true, isVerified := true, lastLoginAt := none, roles := [] }

/-- User table holding a disabled and an enabled account, for claim C2. -/
def dbC2 : List User := [daveInactive, frankActive]

/-- An active session for `carol`, expiring at time 1000. -/
def sessA : Session :=
  { id := "s1", userId := "u-carol", token := "tokA", expiresAt := 1000,
    ipAddress := "ip", userAgent := "ua", isActive := true, user := carolActive }

/-- Claims of an access-type token bound to `sessA`, expiring at time 900. -/
def claimsAccessA : MapClaims :=
  { user_id := .str "u-carol", session_token := .str "tokA", typ := .str "access",
    exp := some 900, iat := some 0 }

/-- Claims of a refresh-type token bound to `sessA`, expiring at time 900. -/
def claimsRefreshA : MapClaims :=
  { user_id := .str "u-carol", session_token := .str "tokA", typ := .str "refresh",
    exp := some 900, iat := some 0 }

/-- An access token for `sessA` signed with `cfgA`'s secret. -/
def tokAccessA : Token := signToken .hs256 "sekrit" claimsAccessA

/-- A refresh token for `sessA` signed with `cfgA`'s secret. -/
def tokRefreshA : Token := signToken .hs256 "sekrit" claimsRefreshA

/-- A refresh request carrying `tokRefreshA`. -/
def reqA : RefreshTokenRequest := { refreshToken := tokRefreshA }

/-- The response `RefreshToken` produces for `reqA` against `[sessA]` at time 0. -/
def respA : LoginResponse :=
  { user := { carolActive with password := "" },
    accessToken := generateAccessToken cfgA "u-carol" "tokA" 0,
    refreshToken := tokRefreshA, expiresIn := 900 }

-- THEOREMS

/-- The function `jwtParse` only ever returns the parsed token's own claims. -/
theorem jwtParse_some {tok : Token} {secret : String} {now : Int} {claims : MapClaims}
    (h : jwtParse tok secret now = some claims) : claims = tok.claims := by
  unfold jwtParse at h
  split at h
  · exact (Option.some.injEq _ _ ▸ h).symm
  · exact absurd h (by simp)

/-- The shared session query returns nothing when the searched bearer token is
empty but no stored session has an empty token. -/
theorem findActiveSession_token_ne {sessions : List Session} {uid : String}
    (h : ∀ s ∈ sessions, s.token ≠ "") :
    findActiveSession sessions "" uid = none := by
  unfold findActiveSession
  rw [List.find?_eq_none]
  intro s hs
  simp only [Bool.and_eq_true, beq_iff_eq]
  rintro ⟨⟨h1, -⟩, -⟩
  exact h s hs h1

/-- The shared session query returns nothing when the searched user id is empty
but no stored session has an empty user id. -/
theorem findActiveSession_userId_ne {sessions : List Session} {tokStr : String}
    (h : ∀ s ∈ sessions, s.userId ≠ "") :
    findActiveSession sessions tokStr "" = none := by
  unfold findActiveSession
  rw [List.find?_eq_none]
  intro s hs
  simp only [Bool.and_eq_true, beq_iff_eq]
  rintro ⟨⟨-, h2⟩, -⟩
  exact h s hs h2

/-- C1, counterexample: with the user table `dbC1`, a wrong password for the
enabled account `carol` yields the body `Invalid credentials`, while any login
attempt against the disabled account `alice` yields the distinct body
`Account is disabled`; the two messages differ, so the claim that both cases
return an identical "invalid credentials" message is false on the code. -/
theorem C1_counterexample :
    (login cfgA dbC1 [] { username := "alice", password := "bad" } 0 "sid" "stok" "ip" "ua").1
      = .err 401 "Account is disabled" ∧
    (login cfgA dbC1 [] { username := "carol", password := "bad" } 0 "sid" "stok" "ip" "ua").1
      = .err 401 "Invalid credentials" ∧
    HandlerResult.err 401 "Account is disabled" ≠ HandlerResult.err 401 "Invalid credentials" := by
  refine ⟨?_, ?_, ?_⟩ <;> decide

/-- C1, amended: both a password mismatch and a disabled account make `Login`
fail with HTTP 401, but the bodies differ: `Invalid credentials` for a
mismatch on an enabled account, `Account is disabled` for a disabled account,
so a caller can distinguish the two cases. -/
theorem C1_amended (cfg : JWTConfig) (users : List User) (sessions : List Session)
    (req : LoginRequest) (now : Int) (sid stok ip ua : String) (u : User)
    (hfind : findUserByLogin users req.username = some u) :
    (u.isActive = false →
      (login cfg users sessions req now sid stok ip ua).1 = .err 401 "Account is disabled") ∧
    (u.isActive = true → compareHashAndPassword u.password req.password = false →
      (login cfg users sessions req now sid stok ip ua).1 = .err 401 "Invalid credentials") := by
  unfold login
  rw [hfind]
  constructor
  · intro h
    simp [h]
  · intro h1 h2
    simp [h1, h2]

/-- C1, witness: the amended theorem applied to the concrete table `dbC1`. -/
theorem C1_amended_witness :
    (login cfgA dbC1 [] { username := "alice", password := "bad" } 0 "sid" "stok" "ip" "ua").1
      = .err 401 "Account is disabled" ∧
    (login cfgA dbC1 [] { username := "carol", password := "bad" } 0 "sid" "stok" "ip" "ua").1
      = .err 401 "Invalid credentials" :=
  ⟨(C1_amended cfgA dbC1 [] { username := "alice", password := "bad" } 0 "sid" "stok" "ip" "ua"
      aliceInactive (by decide)).1 (by decide),
   (C1_amended cfgA dbC1 [] { username := "carol", password := "bad" } 0 "sid" "stok" "ip" "ua"
      carolActive (by decide)).2 (by decide) (by decide)⟩

/-- C2, counterexample: with the user table `dbC2`, the error body for the
existing (disabled) user `dave` with a wrong password is `Account is
disabled`, while the body for the nonexistent username `eve` is `Invalid
credentials`; the two bodies differ, refuting the claimed identity as stated
(quantified over every existing user). -/
theorem C2_counterexample :
    (login cfgA dbC2 [] { username := "dave", password := "wrong" } 0 "sid" "stok" "ip" "ua").1
      = .err 401 "Account is disabled" ∧
    (login cfgA dbC2 [] { username := "eve", password := "wrong" } 0 "sid" "stok" "ip" "ua").1
      = .err 401 "Invalid credentials" ∧
    HandlerResult.err 401 "Account is disabled" ≠ HandlerResult.err 401 "Invalid credentials" := by
  refine ⟨?_, ?_, ?_⟩ <;> decide

/-- C2, amended: login succeeds (HTTP 200) iff a matching user row is found,
its active flag is set, and bcrypt verification succeeds; and the error body
for a nonexistent username is identical (`Invalid credentials`) to the error
body for an existing *active* user with a wrong password. -/
theorem C2_amended (cfg : JWTConfig) (users : List User) (sessions : List Session)
    (now : Int) (sid stok ip ua : String) (req reqN : LoginRequest) (u : User)
    (hfind : findUserByLogin users req.username = some u)
    (hact : u.isActive = true)
    (hpw : compareHashAndPassword u.password req.password = false)
    (hnone : findUserByLogin users reqN.username = none) :
    (∀ r : LoginRequest,
      (login cfg users sessions r now sid stok ip ua).1.isOk = true ↔
        ∃ v, findUserByLogin users r.username = some v ∧ v.isActive = true ∧
          compareHashAndPassword v.password r.password = true) ∧
    (login cfg users sessions req now sid stok ip ua).1
      = (login cfg users sessions reqN now sid stok ip ua).1 ∧
    (login cfg users sessions req now sid stok ip ua).1 = .err 401 "Invalid credentials" := by
  refine ⟨?_, ?_, ?_⟩
  · intro r
    cases h : findUserByLogin users r.username with
    | none => simp [login, h, HandlerResult.isOk]
    | some v =>
      by_cases hv : v.isActive
      · by_cases hc : compareHashAndPassword v.password r.password
        · simp [login, h, hv, hc, HandlerResult.isOk]
        · simp [login, h, hv, hc, HandlerResult.isOk]
      · simp [login, h, hv, HandlerResult.isOk]
  · unfold login
    rw [hfind, hnone]
    simp [hact, hpw]
  · unfold login
    rw [hfind]
    simp [hact, hpw]

/-- C2, witness: the amended theorem applied to the concrete table `dbC2`, an
active user `frank` with a wrong password, and the nonexistent name `ghost`. -/
theorem C2_amended_witness :
    (login cfgA dbC2 [] { username := "frank", password := "nope" } 0 "sid" "stok" "ip" "ua").1
      = (login cfgA dbC2 [] { username := "ghost", password := "x" } 0 "sid" "stok" "ip" "ua").1 :=
  (C2_amended cfgA dbC2 [] 0 "sid" "stok" "ip" "ua"
    { username := "frank", password := "nope" } { username := "ghost", password := "x" }
    frankActive (by decide) (by decide) (by decide) (by decide)).2.1

/-- C3 (confirmed): once `Logout` has cleared a session's active flag, every
request through `AuthMiddleware` presenting any token (access or refresh)
whose claims carry that session's opaque token is rejected with HTTP 401,
even though neither the token's own `exp` nor the session's expiry has passed.
`huniq` reflects the `uniqueIndex` on `Session.Token`. -/
theorem C3_theorem (cfg : JWTConfig) (sessions : List Session) (sess : Session) (tok : Token)
    (now : Int)
    (hmem : sess ∈ sessions)
    (huniq : ∀ s ∈ sessions, s.token = sess.token → s.id = sess.id)
    (hclaims : tok.claims.session_token = .str sess.token)
    (hexp : claimsExpired tok.claims now = false)
    (hsess : sess.isExpired now = false) :
    (authMiddleware cfg (logout sessions sess) tok now).isUnauthorized = true := by
  have hfind : ∀ uid, findActiveSession (logout sessions sess) sess.token uid = none := by
    intro uid
    unfold findActiveSession logout
    rw [List.find?_eq_none]
    intro s' hs'
    simp only [List.mem_map] at hs'
    obtain ⟨s, hsmem, rfl⟩ := hs'
    by_cases hid : s.id = sess.id
    · simp [hid]
    · simp only [hid, beq_iff_eq, if_neg]
      intro hcond
      simp only [Bool.and_eq_true, beq_iff_eq] at hcond
      exact hid (huniq s hsmem hcond.1.1)
  unfold authMiddleware
  cases hp : jwtParse tok cfg.secret now with
  | none => simp [AuthOutcome.isUnauthorized]
  | some claims =>
    have hc : claims = tok.claims := jwtParse_some hp
    subst hc
    cases hu : tok.claims.user_id.asString? with
    | none => simp [hu, AuthOutcome.isUnauthorized]
    | some uid =>
      simp only [hu]
      simp only [hclaims, ClaimVal.asString?]
      rw [hfind uid]
      rfl

/-- C3, witness: the rejection at a concrete store: `carol`'s live session,
logged out, then presented again via a still-unexpired access token. -/
theorem C3_witness :
    (authMiddleware cfgA (logout [sessA] sessA) tokAccessA 0).isUnauthorized = true :=
  C3_theorem cfgA [sessA] sessA tokAccessA 0 (by decide) (by decide) (by decide) (by decide)
    (by decide)

/-- A claim whose unchecked string assertion yields a non-empty string must be a
string claim with that value. -/
theorem ClaimVal.asStringD_eq_of_ne {v : ClaimVal} {t : String}
    (h : v.asStringD = t) (hne : t ≠ "") : v = .str t := by
  cases v with
  | str s => simpa [ClaimVal.asStringD, ClaimVal.asString?] using h
  | missing => exact absurd h.symm hne
  | nonString => exact absurd h.symm hne

/-- C4 (confirmed): when `RefreshToken` succeeds, the minted access token's
claims carry the very `session_token` value of the presented refresh token's
claims, the response echoes the presented refresh token unchanged, and the
session table is unchanged (no new session row).  `hnzT` reflects that stored
session tokens are non-empty UUID strings. -/
theorem C4_theorem (cfg : JWTConfig) (sessions : List Session) (req : RefreshTokenRequest)
    (now : Int) (resp : LoginResponse)
    (hnzT : ∀ s ∈ sessions, s.token ≠ "")
    (hok : (refreshToken cfg sessions req now).1 = .ok resp) :
    resp.refreshToken = req.refreshToken ∧
    resp.accessToken.claims.session_token = req.refreshToken.claims.session_token ∧
    (refreshToken cfg sessions req now).2 = sessions := by
  have h2 : (refreshToken cfg sessions req now).2 = sessions := by
    unfold refreshToken
    cases hp : jwtParse req.refreshToken cfg.secret now with
    | none => rfl
    | some claims =>
      cases hf : findActiveSession sessions claims.session_token.asStringD
          claims.user_id.asStringD with
      | none => simp [hf]
      | some s => by_cases he : s.isExpired now <;> simp [hf, he]
  unfold refreshToken at hok
  cases hp : jwtParse req.refreshToken cfg.secret now with
  | none => rw [hp] at hok; exact absurd hok (by simp)
  | some claims =>
    have hc : claims = req.refreshToken.claims := jwtParse_some hp
    simp only [hp] at hok
    cases hf : findActiveSession sessions claims.session_token.asStringD
        claims.user_id.asStringD with
    | none => rw [hf] at hok; exact absurd hok (by simp)
    | some s =>
      simp only [hf] at hok
      by_cases he : s.isExpired now
      · simp [he] at hok
      · simp only [he, Bool.false_eq_true, if_false] at hok
        injection hok with hresp
        subst hresp
        refine ⟨rfl, ?_, h2⟩
        have hf' : sessions.find?
            (fun s => s.token == claims.session_token.asStringD
              && s.userId == claims.user_id.asStringD && s.isActive) = some s := hf
        have hps := List.find?_some hf'
        simp only [Bool.and_eq_true, beq_iff_eq] at hps
        have hmem' : s ∈ sessions := List.mem_of_find?_eq_some hf'
        have hstr : claims.session_token = .str s.token :=
          ClaimVal.asStringD_eq_of_ne hps.1.1.symm (hnzT s hmem')
        simp [generateAccessToken, signToken, ← hc, hstr]

/-- C4, witness: the theorem at the concrete refresh of `reqA` against
`[sessA]`, whose successful response is `respA`. -/
theorem C4_witness :
    respA.refreshToken = reqA.refreshToken ∧
    respA.accessToken.claims.session_token = reqA.refreshToken.claims.session_token ∧
    (refreshToken cfgA [sessA] reqA 0).2 = [sessA] :=
  C4_theorem cfgA [sessA] reqA 0 respA (by decide) (by decide)

/-- C5 (confirmed): `RefreshToken`'s validation pipeline accepts a token exactly
when `AuthMiddleware`'s does, on the same store and clock — including tokens
with a missing or non-string `user_id` or `session_token` claim, which the
middleware rejects explicitly and the refresh path rejects through a failed
lookup with the zero-value `""`.  `hnzT`/`hnzU` reflect that stored sessions
carry non-empty UUID tokens and user ids. -/
theorem C5_theorem (cfg : JWTConfig) (sessions : List Session) (tok : Token) (now : Int)
    (hnzT : ∀ s ∈ sessions, s.token ≠ "")
    (hnzU : ∀ s ∈ sessions, s.userId ≠ "") :
    (refreshToken cfg sessions { refreshToken := tok } now).1.isOk
      = (authMiddleware cfg sessions tok now).isAuthorized := by
  unfold refreshToken authMiddleware
  cases hp : jwtParse tok cfg.secret now with
  | none => rfl
  | some claims =>
    cases hs : claims.session_token with
    | str st =>
      cases hu : claims.user_id with
      | str uid =>
        simp only [hs, hu, ClaimVal.asStringD, ClaimVal.asString?, Option.getD]
        cases hf : findActiveSession sessions st uid with
        | none => rfl
        | some s =>
          by_cases he : s.isExpired now <;>
            simp [hf, he, HandlerResult.isOk, AuthOutcome.isAuthorized]
      | missing =>
        simp [hs, hu, ClaimVal.asStringD, ClaimVal.asString?,
          findActiveSession_userId_ne hnzU, HandlerResult.isOk, AuthOutcome.isAuthorized]
      | nonString =>
        simp [hs, hu, ClaimVal.asStringD, ClaimVal.asString?,
          findActiveSession_userId_ne hnzU, HandlerResult.isOk, AuthOutcome.isAuthorized]
    | missing =>
      cases hu : claims.user_id <;>
        simp [hs, hu, ClaimVal.asStringD, ClaimVal.asString?,
          findActiveSession_token_ne hnzT, HandlerResult.isOk, AuthOutcome.isAuthorized]
    | nonString =>
      cases hu : claims.user_id <;>
        simp [hs, hu, ClaimVal.asStringD, ClaimVal.asString?,
          findActiveSession_token_ne hnzT, HandlerResult.isOk, AuthOutcome.isAuthorized]

/-- C5, witness: both validators accept `carol`'s live refresh token at the
concrete store `[sessA]`. -/
theorem C5_witness :
    (refreshToken cfgA [sessA] { refreshToken := tokRefreshA } 0).1.isOk
      = (authMiddleware cfgA [sessA] tokRefreshA 0).isAuthorized :=
  C5_theorem cfgA [sessA] tokRefreshA 0 (by decide) (by decide)

/-- C9 (confirmed): `RefreshToken` never inspects the `type` claim: two validly
signed tokens whose claims agree except possibly on `type` produce the same
accept/reject outcome at the refresh endpoint — in particular an access token
is accepted there whenever the corresponding refresh token would be. -/
theorem C9_theorem (cfg : JWTConfig) (sessions : List Session) (t1 t2 : Token) (now : Int)
    (h1s : t1.sig = { alg := t1.method, key := cfg.secret, payload := t1.claims })
    (h1m : t1.method.isHMAC = true)
    (h2s : t2.sig = { alg := t2.method, key := cfg.secret, payload := t2.claims })
    (h2m : t2.method.isHMAC = true)
    (hu : t1.claims.user_id = t2.claims.user_id)
    (hs : t1.claims.session_token = t2.claims.session_token)
    (he : t1.claims.exp = t2.claims.exp) :
    (refreshToken cfg sessions { refreshToken := t1 } now).1.isOk
      = (refreshToken cfg sessions { refreshToken := t2 } now).1.isOk := by
  have hce : claimsExpired t1.claims now = claimsExpired t2.claims now := by
    unfold claimsExpired
    rw [he]
  have hp1 : jwtParse t1 cfg.secret now
      = (if claimsExpired t1.claims now then none else some t1.claims) := by
    unfold jwtParse
    by_cases hc : claimsExpired t1.claims now <;> simp [h1m, h1s, hc]
  have hp2 : jwtParse t2 cfg.secret now
      = (if claimsExpired t2.claims now then none else some t2.claims) := by
    unfold jwtParse
    by_cases hc : claimsExpired t2.claims now <;> simp [h2m, h2s, hc]
  unfold refreshToken
  rw [hp1, hce, hp2]
  by_cases hc : claimsExpired t2.claims now = true
  · simp [hc]
  · rw [if_neg hc, if_neg hc]
    simp only [hu, hs]
    cases hf : findActiveSession sessions t2.claims.session_token.asStringD
        t2.claims.user_id.asStringD with
    | none => rfl
    | some s =>
      by_cases hex : s.isExpired now = true
      · simp [hf, hex]
      · simp [hf, hex, HandlerResult.isOk]

/-- C9, witness: `carol`'s access and refresh tokens (differing only in their
`type` claim) get the same accept outcome from the refresh endpoint. -/
theorem C9_witness :
    (refreshToken cfgA [sessA] { refreshToken := tokAccessA } 0).1.isOk
      = (refreshToken cfgA [sessA] { refreshToken := tokRefreshA } 0).1.isOk :=
  C9_theorem cfgA [sessA] tokAccessA tokRefreshA 0 (by decide) (by decide) (by decide)
    (by decide) (by decide) (by decide) (by decide)

/-- C6 (confirmed): with no identity in the request context, both gate checks
abort with HTTP 401; with an identity present, `RequireRole` aborts with HTTP
403 exactly when no role of the identity has the required name, and
`RequirePermission` aborts with HTTP 403 exactly when the required permission
is absent from the union of the permission strings of all the identity's
roles. -/
theorem C6_theorem (u : User) (requiredRole requiredPermission : String) :
    requireRole none requiredRole = .reject 401 "User not found in context" ∧
    requirePermission none requiredPermission = .reject 401 "User not found in context" ∧
    (requireRole (some u) requiredRole
        = .reject 403 ("Role " ++ requiredRole ++ " is required") ↔
      ∀ role ∈ u.roles, role.name ≠ requiredRole) ∧
    (requirePermission (some u) requiredPermission
        = .reject 403 ("Permission " ++ requiredPermission ++ " is required") ↔
      requiredPermission ∉ (u.roles.map (fun role => role.getPermissions.getD [])).flatten) := by
  refine ⟨rfl, rfl, ?_, ?_⟩
  · simp only [requireRole]
    by_cases h : u.roles.any (fun role => role.name == requiredRole)
    · rw [if_pos h]
      simp only [List.any_eq_true, beq_iff_eq] at h
      obtain ⟨r, hr, hname⟩ := h
      exact iff_of_false (by simp) (fun hall => hall r hr hname)
    · rw [if_neg h]
      simp only [List.any_eq_true, beq_iff_eq, not_exists, not_and] at h
      exact iff_of_true rfl h
  · simp only [requirePermission]
    by_cases h : u.roles.any (fun role =>
        (role.getPermissions.getD []).any (fun permission => permission == requiredPermission))
    · rw [if_pos h]
      simp only [List.any_eq_true, beq_iff_eq] at h
      obtain ⟨r, hr, p, hp, rfl⟩ := h
      refine iff_of_false (by simp) ?_
      intro hnot
      exact hnot (List.mem_flatten.mpr ⟨_, List.mem_map_of_mem _ hr, hp⟩)
    · rw [if_neg h]
      refine iff_of_true rfl ?_
      intro hmem
      apply h
      rw [List.any_eq_true]
      rcases List.mem_flatten.mp hmem with ⟨l, hl, hpl⟩
      rcases List.mem_map.mp hl with ⟨r, hr, rfl⟩
      exact ⟨r, hr, by rw [List.any_eq_true]; exact ⟨requiredPermission, hpl, by simp⟩⟩

/-- C7 (confirmed): over a user table of exactly 25 rows, `GetUsers` with
`page=2` and `limit=10` (and no search) returns exactly 10 users and a
`total_pages` of 3, the ceiling of 25 / 10. -/
theorem C7_theorem (users : List User) (h : users.length = 25) :
    (getUsers users 2 10 "").users.length = 10 ∧ (getUsers users 2 10 "").totalPages = 3 := by
  unfold getUsers
  norm_num
  rw [h]
  constructor
  · decide
  · decide

/-- C7, witness: the theorem at a concrete 25-row table. -/
theorem C7_witness :
    (getUsers (List.replicate 25 carolActive) 2 10 "").users.length = 10 ∧
    (getUsers (List.replicate 25 carolActive) 2 10 "").totalPages = 3 :=
  C7_theorem (List.replicate 25 carolActive) (by decide)

/-- C10 (confirmed): after pruning the client's entries older than one minute,
`RateLimit` rejects with HTTP 429 exactly when at least 100 pruned entries
remain, otherwise it appends the current time and proceeds; in both cases
every stored timestamp for the processed client is afterwards at most one
minute old. -/
theorem C10_theorem (clients : RateState) (ip : String) (now : Int) :
    ((rateLimit clients ip now).1
        = (if ((clients ip).filter (fun t => withinWindow now t)).length ≥ 100 then
            .reject 429 "Rate limit exceeded" else .proceed)) ∧
    ((rateLimit clients ip now).2 ip
        = (if ((clients ip).filter (fun t => withinWindow now t)).length ≥ 100 then
            (clients ip).filter (fun t => withinWindow now t)
          else (clients ip).filter (fun t => withinWindow now t) ++ [now])) ∧
    ((rateLimit clients ip now).2 ip).all (fun t => withinWindow now t) = true := by
  unfold rateLimit
  by_cases h : ((clients ip).filter (fun t => withinWindow now t)).length ≥ 100
  · refine ⟨by simp [h], by simp [h], ?_⟩
    rw [List.all_eq_true]
    intro t ht
    simp [h, List.mem_filter] at ht
    exact ht.2
  · refine ⟨by simp [h], by simp [h], ?_⟩
    rw [List.all_eq_true]
    intro t ht
    simp [h, List.mem_filter, List.mem_append] at ht
    rcases ht with ⟨-, h2⟩ | rfl
    · exact h2
    · simp [withinWindow]

/-- A hex digit emitted by the encoder decodes to its value. -/
theorem parseHexDigit_hexDigitChar {n : Nat} (h : n < 16) :
    parseHexDigit (hexDigitChar n) = some n := by
  have H : ∀ m, m < 16 → parseHexDigit (hexDigitChar m) = some m := by decide
  exact H n h

/-- Applying `String.mk` after `String.data` is the identity. -/
theorem asString_data (s : String) : s.data.asString = s := rfl

/-- Applying `String.data` after `String.mk` is the identity. -/
theorem data_asString (l : List Char) : l.asString.data = l := rfl

/-- Parser step: a closing quote ends the string body. -/
theorem parseStringBody_quote (rest : List Char) :
    parseStringBody ('"' :: rest) = some ([], rest) := by
  unfold parseStringBody
  simp

/-- Parser step: a two-character escape prepends its decoded character. -/
theorem parseStringBody_esc {e u2 : Char} (he : ¬ e = 'u') (hu : unescapeChar e = some u2)
    {rest cs r : List Char} (hrec : parseStringBody rest = some (cs, r)) :
    parseStringBody ('\\' :: e :: rest) = some (u2 :: cs, r) := by
  unfold parseStringBody
  simp [he, hu, hrec]

/-- Parser step: a `\uXXXX` escape prepends the character with that code. -/
theorem parseStringBody_u {c1 c2 c3 c4 : Char} {d1 d2 d3 d4 : Nat}
    (e1 : parseHexDigit c1 = some d1) (e2 : parseHexDigit c2 = some d2)
    (e3 : parseHexDigit c3 = some d3) (e4 : parseHexDigit c4 = some d4)
    {rest cs r : List Char} (hrec : parseStringBody rest = some (cs, r)) :
    parseStringBody ('\\' :: 'u' :: c1 :: c2 :: c3 :: c4 :: rest)
      = some (Char.ofNat (((d1 * 16 + d2) * 16 + d3) * 16 + d4) :: cs, r) := by
  unfold parseStringBody
  simp [e1, e2, e3, e4, hrec]

/-- Parser step: an unescaped plain character prepends itself. -/
theorem parseStringBody_plain {c : Char} (h1 : ¬ c = '"') (h2 : ¬ c = '\\')
    {rest cs r : List Char} (hrec : parseStringBody rest = some (cs, r)) :
    parseStringBody (c :: rest) = some (c :: cs, r) := by
  unfold parseStringBody
  simp [h1, h2, hrec]

/-- Decoding inverts escaping: the parser consumes an escaped body up to its
closing quote and returns exactly the original characters. -/
theorem parseStringBody_escape (cs : List Char) (rest : List Char) :
    parseStringBody (escapeChars cs ++ '"' :: rest) = some (cs, rest) := by
  induction cs with
  | nil => exact parseStringBody_quote rest
  | cons c cs ih =>
    rw [show escapeChars (c :: cs) = escapeChar c ++ escapeChars cs from rfl, List.append_assoc]
    by_cases h1 : c = '"'
    · subst h1
      rw [show escapeChar '"' = ['\\', '"'] from by decide]
      exact parseStringBody_esc (by decide) (by decide) ih
    by_cases h2 : c = '\\'
    · subst h2
      rw [show escapeChar '\\' = ['\\', '\\'] from by decide]
      exact parseStringBody_esc (by decide) (by decide) ih
    by_cases h3 : c = '\n'
    · subst h3
      rw [show escapeChar '\n' = ['\\', 'n'] from by decide]
      exact parseStringBody_esc (by decide) (by decide) ih
    by_cases h4 : c = '\r'
    · subst h4
      rw [show escapeChar '\r' = ['\\', 'r'] from by decide]
      exact parseStringBody_esc (by decide) (by decide) ih
    by_cases h5 : c = '\t'
    · subst h5
      rw [show escapeChar '\t' = ['\\', 't'] from by decide]
      exact parseStringBody_esc (by decide) (by decide) ih
    by_cases h6 : needsUEscape c = true
    · have hlt : c.toNat < 65536 := by
        unfold needsUEscape at h6
        simp only [Bool.or_eq_true, decide_eq_true_eq] at h6
        rcases h6 with ((((h | h) | h) | h) | h) | h
        · omega
        · subst h
          decide
        · subst h
          decide
        · subst h
          decide
        · omega
        · omega
      have e1 := parseHexDigit_hexDigitChar (Nat.mod_lt (c.toNat / 4096) (by decide))
      have e2 := parseHexDigit_hexDigitChar (Nat.mod_lt (c.toNat / 256) (by decide))
      have e3 := parseHexDigit_hexDigitChar (Nat.mod_lt (c.toNat / 16) (by decide))
      have e4 := parseHexDigit_hexDigitChar (Nat.mod_lt c.toNat (by decide))
      have hn : ((c.toNat / 4096 % 16 * 16 + c.toNat / 256 % 16) * 16 + c.toNat / 16 % 16) * 16
          + c.toNat % 16 = c.toNat := by omega
      have hesc : escapeChar c = '\\' :: 'u' :: hex4 c.toNat := by
        simp [escapeChar, h1, h2, h3, h4, h5, h6]
      rw [hesc]
      simp only [hex4, List.cons_append, List.nil_append]
      rw [parseStringBody_u e1 e2 e3 e4 ih, hn, Char.ofNat_toNat]
    · have hesc : escapeChar c = [c] := by
        simp [escapeChar, h1, h2, h3, h4, h5, h6]
      rw [hesc]
      exact parseStringBody_plain h1 h2 ih

/-- The element parser inverts the element encoder given enough fuel. -/
theorem parseElems_marshal (l : List String) : ∀ (s : String) (fuel : Nat), l.length < fuel →
    parseElems fuel (marshalElems (s :: l) ++ [']']) = some (s :: l) := by
  induction l with
  | nil =>
    intro s fuel h
    cases fuel with
    | zero => omega
    | succ f =>
      have hsh : marshalElems [s] ++ [']'] = '"' :: (escapeChars s.data ++ '"' :: [']']) := by
        simp [marshalElems, quoteChars]
      rw [hsh]
      simp only [parseElems]
      rw [parseStringBody_escape]
      simp [asString_data]
  | cons s2 t ih =>
    intro s fuel h
    cases fuel with
    | zero => omega
    | succ f =>
      have hsh : marshalElems (s :: s2 :: t) ++ [']']
          = '"' :: (escapeChars s.data ++ '"' :: (',' :: (marshalElems (s2 :: t) ++ [']']))) := by
        simp [marshalElems, quoteChars]
      rw [hsh]
      simp only [parseElems]
      rw [parseStringBody_escape]
      have ht : t.length < f := by
        simpa using Nat.lt_of_succ_lt_succ h
      simp [ih s2 f ht, asString_data]

/-- Every encoded element list of a non-empty slice is at least as long as the
slice itself. -/
theorem marshalElems_length : ∀ (s : String) (t : List String),
    (s :: t).length ≤ (marshalElems (s :: t)).length := by
  intro s t
  induction t generalizing s with
  | nil => simp [marshalElems, quoteChars]
  | cons s2 t ih =>
    have h2 := ih s2
    simp only [List.length_cons] at h2
    rw [show marshalElems (s :: s2 :: t) = quoteChars s ++ ',' :: marshalElems (s2 :: t)
      from rfl]
    simp only [quoteChars, List.length_append, List.length_cons]
    omega

/-- The encoder never produces the empty string. -/
theorem marshalStrings_ne_empty (l : List String) : marshalStrings l ≠ "" := by
  intro h
  have h' := congrArg String.data h
  rw [marshalStrings, data_asString] at h'
  exact absurd h' (by simp)

/-- The encoder never produces the JSON text `null`. -/
theorem marshalStrings_ne_null (l : List String) : marshalStrings l ≠ "null" := by
  intro h
  have h' := congrArg String.data h
  rw [marshalStrings, data_asString] at h'
  have hn : ("null" : String).data = ['n', 'u', 'l', 'l'] := rfl
  rw [hn] at h'
  injection h' with hhead _
  exact absurd hhead (by decide)

/-- Round trip: unmarshalling a marshalled `[]string` returns the original
slice. -/
theorem unmarshal_marshalStrings (l : List String) :
    unmarshalStrings (marshalStrings l) = some l := by
  cases l with
  | nil => decide
  | cons s t =>
    have hne : marshalElems (s :: t) ≠ [] := by
      cases t <;> simp [marshalElems, quoteChars]
    have hcond : marshalElems (s :: t) ++ [']'] ≠ [']'] := by
      intro hcl
      have hl := congrArg List.length hcl
      simp at hl
      exact hne hl
    have hlen : (s :: t).length ≤ (marshalElems (s :: t)).length := marshalElems_length s t
    unfold unmarshalStrings
    rw [marshalStrings, data_asString]
    simp [hcond]
    apply parseElems_marshal
    simp only [List.length_append, List.length_cons] at hlen ⊢
    omega

/-- C8 (confirmed): `SetPermissions` always stores a valid serialization of a
non-null list (`nil` mapped to the empty list), `GetPermissions` recovers
exactly the list that was set, and an empty `Permissions` column yields the
empty list, never nil (`none` models the nil slice). -/
theorem C8_theorem (r : Role) (perms : Option (List String)) :
    unmarshalStrings ((r.setPermissions perms).permissions) = some (perms.getD []) ∧
    (r.setPermissions perms).permissions ≠ "null" ∧
    (r.setPermissions perms).getPermissions = some (perms.getD []) ∧
    ({ r with permissions := "" } : Role).getPermissions = some [] := by
  refine ⟨?_, ?_, ?_, rfl⟩
  · simp only [Role.setPermissions]
    exact unmarshal_marshalStrings _
  · simp only [Role.setPermissions]
    exact marshalStrings_ne_null _
  · simp only [Role.getPermissions, Role.setPermissions]
    have hb : (marshalStrings (perms.getD []) == "") = false := by
      rw [beq_eq_false_iff_ne]
      exact marshalStrings_ne_empty _
    rw [hb]
    simp [unmarshal_marshalStrings]

end Gauth
